import Mathlib

/-!
# ESP-NOW packet transport (`esphome/components/espnow/espnow.h`)

A shallow embedding of the packet record `ESPNowPacket`, of the reference-id
counter of `ESPNowProtocol` and of the protocol registry of `ESPNowComponent`,
followed by the properties established for them.

Conventions.
* Machine integers are natural numbers; every store into a `uintN_t` object is
  written with an explicit `% 2^N`.
* C arrays (`header[3]`, `data[240]`) are functions from the index to the byte.
* An automatic variable without initialiser holds an indeterminate value; it is
  an explicit argument of the function that declares it.
* Pointers to protocol objects are natural numbers, and the objects live in a
  store `Nat → ESPNowProtocol`.
-/

namespace esphome.espnow

/-! ## Constants -/

/-- Source: `static const uint64_t ESPNOW_BROADCAST_ADDR = 0xFFFFFFFFFFFF;` -/
def ESPNOW_BROADCAST_ADDR : Nat := 0xFFFFFFFFFFFF

/-- Source: `static const uint8_t MAX_ESPNOW_DATA_SIZE = 240;` -/
def MAX_ESPNOW_DATA_SIZE : Nat := 240

/-- Source: `static const uint32_t TRANSPORT_HEADER = 0xC19983;` -/
def TRANSPORT_HEADER : Nat := 0xC19983

/-- Source: `static const uint32_t ESPNOW_DEFAULT_APP_ID = 0x11CFAF;` -/
def ESPNOW_DEFAULT_APP_ID : Nat := 0x11CFAF

/-- Number of elements of `uint8_t content[MAX_ESPNOW_DATA_SIZE + 11]`. -/
def CONTENT_SIZE : Nat := MAX_ESPNOW_DATA_SIZE + 11

/-! ## The packet record -/

/-- The record `struct ESPNowPacket`.  The members of the anonymous struct inside
the union are fields of their own; `padding i` is the byte stored at offset `i`
of the union where no named member lives (its value is indeterminate). -/
structure ESPNowPacket where
  mac64 : Nat
  size : Nat
  rssi : Nat
  retrys : Nat
  is_broadcast : Nat
  dummy : Nat
  timestamp : Nat
  header : Nat → Nat
  app_id : Nat
  ref_id : Nat
  crc16 : Nat
  data : Nat → Nat
  space : Nat
  padding : Nat → Nat

/-- The initialiser `{0xC1, 0x99, 0x83}` of `header`. -/
def HEADER_INIT (i : Nat) : Nat :=
  match i with
  | 0 => 0xC1
  | 1 => 0x99
  | 2 => 0x83
  | _ => 0

/-- Source: `inline ESPNowPacket() : retrys(0) {}` together with the default member
initialisers.  `raw` is the storage the object is built in: members without
initialiser (`is_broadcast`, `dummy`, `data`, the padding) keep what it holds. -/
def ESPNowPacket.ctor (raw : ESPNowPacket) : ESPNowPacket :=
  { raw with
    mac64 := 0
    size := 0
    rssi := 0
    retrys := 0
    timestamp := 0
    header := HEADER_INIT
    app_id := 0xFFFFFF
    ref_id := 0x99
    crc16 := 0x1234
    space := 0 }

/-- Source: `void retry() { if (this->retrys < 7) { retrys = retrys + 1; } }`.
`retrys` is a 4-bit bit-field, so the store is taken modulo 16. -/
def ESPNowPacket.retry (p : ESPNowPacket) : ESPNowPacket :=
  if p.retrys < 7 then { p with retrys := (p.retrys + 1) % 16 } else p

/-! ## Hardware addresses -/

/-- The value of a byte string read as a little-endian integer (the target is
little-endian), each element taken as a `uint8_t`. -/
def le_value : List Nat → Nat
  | [] => 0
  | b :: bs => b % 256 + 256 * le_value bs

/-- The first `n` bytes of the object representation of the integer `v`,
least significant byte first. -/
def le_bytes : Nat → Nat → List Nat
  | 0, _ => []
  | n + 1, v => v % 256 :: le_bytes n (v / 256)

/-- An `espnow_addr_t` (`uint8_t[6]`): six bytes. -/
def is_addr (a : List Nat) : Prop :=
  a.length = 6 ∧ ∀ b ∈ a, b < 256

instance (a : List Nat) : Decidable (is_addr a) := by
  unfold is_addr
  exact inferInstance

/-- Source: `uint64_t result; std::memcpy(&result, mac_addres, 6); return result;`.
`result` has no initialiser: `result0` is the value its eight bytes hold when
the function is entered.  The copy overwrites the six low-order bytes and
leaves the two high-order bytes as they were. -/
def ESPNowPacket.to_mac64 (result0 : Nat) (mac_addres : List Nat) : Nat :=
  le_value (mac_addres.take 6) + 2 ^ 48 * (result0 / 2 ^ 48 % 2 ^ 16)

/-- Source: `void set_mac(espnow_addr_t *mac_addres) { this->mac64 = this->to_mac64(mac_addres); }` -/
def ESPNowPacket.set_mac (result0 : Nat) (mac_addres : List Nat) (p : ESPNowPacket) :
    ESPNowPacket :=
  { p with mac64 := ESPNowPacket.to_mac64 result0 mac_addres }

/-- Source: `void get_mac(espnow_addr_t *mac_addres) { std::memcpy(mac_addres, &mac64, 6); }`.
The result is the new content of `*mac_addres`. -/
def ESPNowPacket.get_mac (p : ESPNowPacket) : List Nat :=
  le_bytes 6 p.mac64

/-! ## Layout of the anonymous union

The struct inside the union is not declared packed, so the offset of each
member follows from the alignment the target ABI gives to `uint16_t` and
`uint32_t` (`uint8_t` has alignment 1): a member is placed at the first
multiple of its alignment that is not below the end of the previous member. -/

/-- Alignment of the two multi-byte scalar types used by the anonymous struct. -/
structure ABI where
  align16 : Nat
  align32 : Nat
  pos16 : 0 < align16
  pos32 : 0 < align32

/-- The ABI of the ESP32 targets this header is compiled for (`USE_ESP32`):
naturally aligned scalars. -/
def ESP32_ABI : ABI := ⟨2, 4, by decide, by decide⟩

/-- An ABI without alignment constraints, which is what a packed struct gets. -/
def PACKED_ABI : ABI := ⟨1, 1, by decide, by decide⟩

/-- The first multiple of `a` that is not below `n`. -/
def align_up (n a : Nat) : Nat := (n + a - 1) / a * a

/-- Offset of `uint8_t header[3]`, the first member. -/
def offsetof_header : Nat := 0

/-- Offset of `uint32_t app_id`, which follows the 3 bytes of `header`. -/
def offsetof_app_id (abi : ABI) : Nat := align_up (offsetof_header + 3) abi.align32

/-- Offset of `uint8_t ref_id`, which follows the 4 bytes of `app_id`. -/
def offsetof_ref_id (abi : ABI) : Nat := offsetof_app_id abi + 4

/-- Offset of `uint16_t crc16`, which follows the byte of `ref_id`. -/
def offsetof_crc16 (abi : ABI) : Nat := align_up (offsetof_ref_id abi + 1) abi.align16

/-- Offset of `uint8_t data[MAX_ESPNOW_DATA_SIZE]`, which follows the 2 bytes of `crc16`. -/
def offsetof_data (abi : ABI) : Nat := offsetof_crc16 abi + 2

/-- Offset of `uint8_t space`, which follows `data`. -/
def offsetof_space (abi : ABI) : Nat := offsetof_data abi + MAX_ESPNOW_DATA_SIZE

/-- The byte at offset `i` of the union, that is `content[i]` for `i < CONTENT_SIZE`:
the byte of the member of the anonymous struct that lives there (multi-byte
members least significant byte first), or the padding byte. -/
def ESPNowPacket.content_byte (abi : ABI) (p : ESPNowPacket) (i : Nat) : Nat :=
  if i < offsetof_header + 3 then p.header (i - offsetof_header) % 256
  else if offsetof_app_id abi ≤ i ∧ i < offsetof_app_id abi + 4 then
    p.app_id / 256 ^ (i - offsetof_app_id abi) % 256
  else if i = offsetof_ref_id abi then p.ref_id % 256
  else if offsetof_crc16 abi ≤ i ∧ i < offsetof_crc16 abi + 2 then
    p.crc16 / 256 ^ (i - offsetof_crc16 abi) % 256
  else if offsetof_data abi ≤ i ∧ i < offsetof_data abi + MAX_ESPNOW_DATA_SIZE then
    p.data (i - offsetof_data abi) % 256
  else if i = offsetof_space abi then p.space % 256
  else p.padding i % 256

/-- The array `uint8_t content[MAX_ESPNOW_DATA_SIZE + 11]`, the other member of the union. -/
def ESPNowPacket.content (abi : ABI) (p : ESPNowPacket) : List Nat :=
  (List.range CONTENT_SIZE).map (p.content_byte abi)

/-- Read of the first `n` elements of an array object: defined only when the
array has that many elements. -/
def read_bytes (buf : List Nat) (n : Nat) : Option (List Nat) :=
  if n ≤ buf.length then some (buf.take n) else none

/-- Source: the first statement of `recalc()`, `crc16 = 0;`. -/
def ESPNowPacket.clear_crc16 (p : ESPNowPacket) : ESPNowPacket :=
  { p with crc16 := 0 }

/-- Source:
`crc16 = 0; crc16 = esp_crc16_le(ref_id, (uint8_t *) &content, 10 + size);`.
`crc` stands for the vendor routine `esp_crc16_le(seed, buffer, length)`; its
result is stored in a `uint16_t`.  The result is `none` when the routine is
made to read past the end of `content`. -/
def ESPNowPacket.recalc (abi : ABI) (crc : Nat → List Nat → Nat) (p : ESPNowPacket) :
    Option ESPNowPacket :=
  let p0 : ESPNowPacket := p.clear_crc16
  match read_bytes (p0.content abi) (10 + p0.size) with
  | none => none
  | some b => some { p0 with crc16 := crc p0.ref_id b % 65536 }

/-! ## The vendor checksum -/

/-- One bit of the reflected CRC with polynomial `0x8408`. -/
def crc16_le_bit (crc : Nat) : Nat :=
  if crc % 2 = 1 then (crc / 2) ^^^ 0x8408 else crc / 2

/-- One byte of the checksum: `crc16_le_table[(crc ^ b) & 0xff] ^ (crc >> 8)`,
written bit by bit. -/
def crc16_le_byte (crc b : Nat) : Nat :=
  crc16_le_bit^[8] (crc ^^^ (b % 256))

/-- Modelled from the spec: the radio vendor's little-endian CRC16
(`esp_crc16_le` of `esp_crc.h`, a ROM routine that is not part of the
repository), seeded with its first argument: the seed is complemented, each
byte is folded in with the reflected polynomial `0x8408`, and the result is
complemented again. -/
def esp_crc16_le (crc : Nat) (buf : List Nat) : Nat :=
  0xFFFF - buf.foldl crc16_le_byte (0xFFFF - crc % 65536)

/-! ## Protocols and the registry -/

/-- The class `ESPNowProtocol`: `parent_` comes from `Parented<ESPNowComponent>`
(a pointer, `none` for null), `app_id` is the value the virtual `get_app_id()`
of the object returns, `next_ref_id_` is the `uint8_t` counter. -/
structure ESPNowProtocol where
  parent_ : Option Nat
  app_id : Nat
  next_ref_id_ : Nat

/-- Source: `ESPNowProtocol(){};` with `uint8_t next_ref_id_{0};` for an object
whose `get_app_id()` returns `app_id`. -/
def ESPNowProtocol.ctor (app_id : Nat) : ESPNowProtocol :=
  { parent_ := none, app_id := app_id, next_ref_id_ := 0 }

/-- Source: `uint8_t get_next_ref_id() { return next_ref_id_++; }`.
Returns the value before the increment; the incremented value is stored in a
`uint8_t`. -/
def ESPNowProtocol.get_next_ref_id (self : ESPNowProtocol) : Nat × ESPNowProtocol :=
  (self.next_ref_id_, { self with next_ref_id_ := (self.next_ref_id_ + 1) % 256 })

/-- The object after `k` calls of `get_next_ref_id()`. -/
def ESPNowProtocol.after_calls (self : ESPNowProtocol) : Nat → ESPNowProtocol
  | 0 => self
  | k + 1 => ((self.after_calls k).get_next_ref_id).2

/-- The value returned by call number `k` (counting from 0) of `get_next_ref_id()`. -/
def ESPNowProtocol.nth_ref_id (self : ESPNowProtocol) (k : Nat) : Nat :=
  ((self.after_calls k).get_next_ref_id).1

/-- The call `ptr->get_next_ref_id()` on the object at address `ptr` of the store. -/
def call_get_next_ref_id (store : Nat → ESPNowProtocol) (ptr : Nat) :
    Nat × (Nat → ESPNowProtocol) :=
  ((store ptr).get_next_ref_id.1, Function.update store ptr (store ptr).get_next_ref_id.2)

/-- The assignment `m[k] = v` on a `std::map<uint32_t, ESPNowProtocol *>`, held as
the list of its entries in ascending key order: the value of an entry with
key `k` is replaced, otherwise a new entry is inserted at its place. -/
def map_assign : List (Nat × Nat) → Nat → Nat → List (Nat × Nat)
  | [], k, v => [(k, v)]
  | (k0, v0) :: rest, k, v =>
    if k < k0 then (k, v) :: (k0, v0) :: rest
    else if k = k0 then (k, v) :: rest
    else (k0, v0) :: map_assign rest k v

/-- Lookup of key `k` in the map (`find`): the value of the first entry with that key. -/
def map_find : List (Nat × Nat) → Nat → Option Nat
  | [], _ => none
  | (k0, v0) :: rest, k => if k = k0 then some v0 else map_find rest k

/-- The keys of a map, in storage order. -/
def map_keys (m : List (Nat × Nat)) : List Nat := m.map Prod.fst

/-- Representation invariant of `std::map`: keys strictly ascending. -/
def map_ordered (m : List (Nat × Nat)) : Prop := (map_keys m).Pairwise (· < ·)

instance (m : List (Nat × Nat)) : Decidable (map_ordered m) := by
  unfold map_ordered
  exact inferInstance

/-- The members of `class ESPNowComponent` that are plain data. -/
structure ESPNowComponent where
  wifi_channel_ : Nat
  auto_add_peer_ : Bool
  use_sent_check_ : Bool
  lock_ : Bool
  protocols_ : List (Nat × Nat)
  peers_ : List Nat

/-- Source:
`protocol->set_parent(this); this->protocols_[protocol->get_app_id()] = protocol;`.
`this` is the address of the component, `protocol` the address of the
protocol object in `store`. -/
def ESPNowComponent.register_protocol (this : Nat) (self : ESPNowComponent)
    (store : Nat → ESPNowProtocol) (protocol : Nat) :
    ESPNowComponent × (Nat → ESPNowProtocol) :=
  let store1 := Function.update store protocol { store protocol with parent_ := some this }
  ({ self with protocols_ := map_assign self.protocols_ (store1 protocol).app_id protocol },
    store1)

/-! ## Sample objects -/

/-- Storage whose bytes are all zero. -/
def ZERO_STORAGE : ESPNowPacket :=
  { mac64 := 0, size := 0, rssi := 0, retrys := 0, is_broadcast := 0, dummy := 0,
    timestamp := 0, header := fun _ => 0, app_id := 0, ref_id := 0, crc16 := 0,
    data := fun _ => 0, space := 0, padding := fun _ => 0 }

/-- A default-constructed packet (built in zeroed storage). -/
def DEFAULT_PACKET : ESPNowPacket := ESPNowPacket.ctor ZERO_STORAGE

/-- The address `ff:ff:ff:ff:ff:ff`. -/
def ALL_ONES_ADDR : List Nat := [0xFF, 0xFF, 0xFF, 0xFF, 0xFF, 0xFF]

/-- The payload `{0x01, 0x02}` in an otherwise zero buffer. -/
def SAMPLE_DATA (i : Nat) : Nat :=
  match i with
  | 0 => 0x01
  | 1 => 0x02
  | _ => 0

/-- A packet of the default protocol with reference id 5 and the two payload
bytes `01 02`. -/
def SAMPLE_PACKET : ESPNowPacket :=
  { DEFAULT_PACKET with
    size := 2
    app_id := ESPNOW_DEFAULT_APP_ID
    ref_id := 5
    data := SAMPLE_DATA }

/-- The packet `SAMPLE_PACKET` under another application id. -/
def SAMPLE_PACKET_OTHER_APP : ESPNowPacket :=
  { SAMPLE_PACKET with app_id := 0xFFFFFF }

/-- The packet `SAMPLE_PACKET` with other header bytes. -/
def SAMPLE_PACKET_OTHER_HEADER : ESPNowPacket :=
  { SAMPLE_PACKET with header := fun _ => 0 }

/-- A component whose registry already holds the protocol at address 1 under
the default application id. -/
def SAMPLE_COMPONENT : ESPNowComponent :=
  { wifi_channel_ := 0, auto_add_peer_ := false, use_sent_check_ := true, lock_ := false,
    protocols_ := [(ESPNOW_DEFAULT_APP_ID, 1)], peers_ := [] }

/-! # Properties -/

/-! ## Retry counter -/

theorem retry_retrys (p : ESPNowPacket) :
    p.retry.retrys = if p.retrys < 7 then p.retrys + 1 else p.retrys := by
  unfold ESPNowPacket.retry
  split
  · show (p.retrys + 1) % 16 = p.retrys + 1
    omega
  · rfl

theorem retry_iterate_retrys (n : Nat) (p : ESPNowPacket) (h : p.retrys ≤ 7) :
    (ESPNowPacket.retry^[n] p).retrys = min (p.retrys + n) 7 := by
  induction n generalizing p with
  | zero => simp [h]
  | succ n ih =>
    rw [Function.iterate_succ_apply]
    have hr := retry_retrys p
    have hle : p.retry.retrys ≤ 7 := by
      rw [hr]
      split <;> omega
    rw [ih p.retry hle, hr]
    split <;> omega

/-- C1: after `n` consecutive `retry()` calls on a default-constructed packet
`retrys` equals `min n 7`, after 10 calls it equals 7, and for every packet
state `retry()` never makes `retrys` smaller. -/
theorem C1_retry_saturates_at_7 (n : Nat) (raw : ESPNowPacket) :
    (ESPNowPacket.retry^[n] (ESPNowPacket.ctor raw)).retrys = min n 7 ∧
    (ESPNowPacket.retry^[10] (ESPNowPacket.ctor raw)).retrys = 7 ∧
    ∀ p : ESPNowPacket, p.retrys ≤ p.retry.retrys := by
  have h0 : (ESPNowPacket.ctor raw).retrys ≤ 7 := by
    show 0 ≤ 7
    omega
  have hz : (ESPNowPacket.ctor raw).retrys = 0 := rfl
  refine ⟨?_, ?_, ?_⟩
  · rw [retry_iterate_retrys n _ h0, hz]
    simp
  · rw [retry_iterate_retrys 10 _ h0, hz]
    rfl
  · intro p
    rw [retry_retrys]
    split <;> omega

/-! ## Hardware addresses -/

theorem le_bytes_le_value (a : List Nat) (hi : Nat) (h : ∀ b ∈ a, b < 256) :
    le_bytes a.length (le_value a + 256 ^ a.length * hi) = a := by
  induction a with
  | nil => rfl
  | cons b bs ih =>
    have hb : b < 256 := h b (List.mem_cons_self b bs)
    have hbs : ∀ x ∈ bs, x < 256 := fun x hx => h x (List.mem_cons_of_mem b hx)
    have e : le_value (b :: bs) + 256 ^ (b :: bs).length * hi
        = b + 256 * (le_value bs + 256 ^ bs.length * hi) := by
      simp only [le_value, List.length_cons, pow_succ, Nat.mod_eq_of_lt hb]
      ring
    rw [e]
    simp only [List.length_cons, le_bytes]
    have e1 : (b + 256 * (le_value bs + 256 ^ bs.length * hi)) % 256 = b := by omega
    have e2 : (b + 256 * (le_value bs + 256 ^ bs.length * hi)) / 256
        = le_value bs + 256 ^ bs.length * hi := by omega
    rw [e1, e2, ih hbs]

/-- C8: evaluated on the all-ones address with the automatic variable `result`
holding `0xFFFFFFFFFFFFFFFF` on entry, `to_mac64` returns `0xFFFFFFFFFFFFFFFF`:
the two high-order bytes are not zero, the value differs from
`ESPNOW_BROADCAST_ADDR`, and `set_mac` stores it in `mac64`; with `result`
holding 0 on entry the same address does give `ESPNOW_BROADCAST_ADDR`. -/
theorem C8_to_mac64_keeps_stale_high_bytes :
    ESPNowPacket.to_mac64 0xFFFFFFFFFFFFFFFF ALL_ONES_ADDR = 0xFFFFFFFFFFFFFFFF ∧
    ESPNowPacket.to_mac64 0xFFFFFFFFFFFFFFFF ALL_ONES_ADDR ≠ ESPNOW_BROADCAST_ADDR ∧
    ESPNowPacket.to_mac64 0xFFFFFFFFFFFFFFFF ALL_ONES_ADDR / 2 ^ 48 = 0xFFFF ∧
    (DEFAULT_PACKET.set_mac 0xFFFFFFFFFFFFFFFF ALL_ONES_ADDR).mac64 = 0xFFFFFFFFFFFFFFFF ∧
    ESPNowPacket.to_mac64 0 ALL_ONES_ADDR = ESPNOW_BROADCAST_ADDR := by
  repeat' apply And.intro
  all_goals decide

/-- C9: for every 6-byte address `a` and every packet `p`, `set_mac(a)` followed
by `get_mac(out)` leaves `out` equal to `a`, whatever the automatic variable of
`to_mac64` held, and `set_mac` changes no field other than `mac64`. -/
theorem C9_set_mac_get_mac_round_trip (result0 : Nat) (a : List Nat) (p : ESPNowPacket)
    (ha : is_addr a) :
    (p.set_mac result0 a).get_mac = a ∧
    p.set_mac result0 a = { p with mac64 := (p.set_mac result0 a).mac64 } := by
  refine ⟨?_, rfl⟩
  obtain ⟨hlen, hb⟩ := ha
  have ht : a.take 6 = a := by
    rw [← hlen]
    exact List.take_length a
  show le_bytes 6 (le_value (a.take 6) + 2 ^ 48 * (result0 / 2 ^ 48 % 2 ^ 16)) = a
  rw [ht]
  have h := le_bytes_le_value a (result0 / 2 ^ 48 % 2 ^ 16) hb
  rw [hlen] at h
  exact h

theorem C9_set_mac_get_mac_round_trip_witness :
    is_addr [0x24, 0x6F, 0x28, 0x01, 0x02, 0x03] ∧
    (DEFAULT_PACKET.set_mac 0xFFFFFFFFFFFFFFFF [0x24, 0x6F, 0x28, 0x01, 0x02, 0x03]).get_mac
      = [0x24, 0x6F, 0x28, 0x01, 0x02, 0x03] :=
  ⟨by decide,
    (C9_set_mac_get_mac_round_trip 0xFFFFFFFFFFFFFFFF [0x24, 0x6F, 0x28, 0x01, 0x02, 0x03]
      DEFAULT_PACKET (by decide)).1⟩

/-! ## Reference-id counter -/

theorem after_calls_next_ref_id (app k : Nat) :
    ((ESPNowProtocol.ctor app).after_calls k).next_ref_id_ = k % 256 := by
  induction k with
  | zero => rfl
  | succ k ih =>
    show (((ESPNowProtocol.ctor app).after_calls k).next_ref_id_ + 1) % 256 = (k + 1) % 256
    rw [ih]
    omega

theorem nth_ref_id_eq (app k : Nat) : (ESPNowProtocol.ctor app).nth_ref_id k = k % 256 :=
  after_calls_next_ref_id app k

/-- C5: call number `k` (counting from 0) of `get_next_ref_id()` on a freshly
constructed protocol returns `k mod 256`; consecutive results differ by 1
modulo 256; the call after one that returned 255 returns 0; a call on the
object at address `i` returns that object's counter, advances it, and leaves
the object at any other address `j` as it was. -/
theorem C5_get_next_ref_id_wraps_at_256 (app k : Nat) (store : Nat → ESPNowProtocol)
    (i j : Nat) (hij : j ≠ i) :
    (ESPNowProtocol.ctor app).nth_ref_id k = k % 256 ∧
    (ESPNowProtocol.ctor app).nth_ref_id (k + 1)
      = ((ESPNowProtocol.ctor app).nth_ref_id k + 1) % 256 ∧
    ((ESPNowProtocol.ctor app).nth_ref_id k = 255 →
      (ESPNowProtocol.ctor app).nth_ref_id (k + 1) = 0) ∧
    (call_get_next_ref_id store i).1 = (store i).next_ref_id_ ∧
    ((call_get_next_ref_id store i).2 i).next_ref_id_ = ((store i).next_ref_id_ + 1) % 256 ∧
    (call_get_next_ref_id store i).2 j = store j := by
  refine ⟨nth_ref_id_eq app k, ?_, ?_, rfl, ?_, ?_⟩
  · rw [nth_ref_id_eq, nth_ref_id_eq]
    omega
  · rw [nth_ref_id_eq, nth_ref_id_eq]
    omega
  · simp [call_get_next_ref_id, ESPNowProtocol.get_next_ref_id]
  · simp [call_get_next_ref_id, Function.update_noteq hij]

theorem C5_get_next_ref_id_wraps_at_256_witness :
    (1 : Nat) ≠ 0 ∧
    (ESPNowProtocol.ctor ESPNOW_DEFAULT_APP_ID).nth_ref_id 255 = 255 ∧
    (ESPNowProtocol.ctor ESPNOW_DEFAULT_APP_ID).nth_ref_id 256 = 0 ∧
    (call_get_next_ref_id (fun _ => ESPNowProtocol.ctor ESPNOW_DEFAULT_APP_ID) 0).2 1
      = ESPNowProtocol.ctor ESPNOW_DEFAULT_APP_ID :=
  have h := C5_get_next_ref_id_wraps_at_256 ESPNOW_DEFAULT_APP_ID 255
    (fun _ => ESPNowProtocol.ctor ESPNOW_DEFAULT_APP_ID) 0 1 (by decide)
  ⟨by decide, h.1, h.2.2.1 h.1, h.2.2.2.2.2⟩

/-! ## Protocol registry -/

theorem map_find_assign_same (m : List (Nat × Nat)) (k v : Nat) :
    map_find (map_assign m k v) k = some v := by
  induction m with
  | nil => simp [map_assign, map_find]
  | cons e rest ih =>
    obtain ⟨k0, v0⟩ := e
    unfold map_assign
    split
    · simp [map_find]
    · split
      · simp [map_find]
      · rename_i h1 h2
        simp [map_find, h2, ih]

theorem map_find_assign_other (m : List (Nat × Nat)) (k v x : Nat) (hx : x ≠ k) :
    map_find (map_assign m k v) x = map_find m x := by
  induction m with
  | nil => simp [map_assign, map_find, hx]
  | cons e rest ih =>
    obtain ⟨k0, v0⟩ := e
    unfold map_assign
    split
    · simp [map_find, hx]
    · split
      · rename_i h1 h2
        subst h2
        simp [map_find, hx]
      · simp [map_find, ih]

theorem map_keys_assign_mem (m : List (Nat × Nat)) (k v x : Nat)
    (hx : x ∈ map_keys (map_assign m k v)) : x = k ∨ x ∈ map_keys m := by
  induction m with
  | nil =>
    simp [map_assign, map_keys] at hx
    exact Or.inl hx
  | cons e rest ih =>
    obtain ⟨k0, v0⟩ := e
    unfold map_assign at hx
    split at hx
    · simp only [map_keys, List.map_cons, List.mem_cons] at hx ⊢
      exact hx
    · split at hx
      · rename_i h1 h2
        simp only [map_keys, List.map_cons, List.mem_cons] at hx ⊢
        rcases hx with hx | hx
        · exact Or.inl hx
        · exact Or.inr (Or.inr hx)
      · simp only [map_keys, List.map_cons, List.mem_cons] at hx ⊢
        rcases hx with hx | hx
        · exact Or.inr (Or.inl hx)
        · rcases ih hx with h | h
          · exact Or.inl h
          · exact Or.inr (Or.inr h)

theorem map_ordered_assign (m : List (Nat × Nat)) (k v : Nat) (h : map_ordered m) :
    map_ordered (map_assign m k v) := by
  induction m with
  | nil => simp [map_assign, map_ordered, map_keys]
  | cons e rest ih =>
    obtain ⟨k0, v0⟩ := e
    have h0 : ∀ x ∈ map_keys rest, k0 < x := by
      intro x hx
      exact (List.pairwise_cons.mp h).1 x hx
    have hrest : map_ordered rest := (List.pairwise_cons.mp h).2
    unfold map_assign
    split
    · rename_i hlt
      refine List.pairwise_cons.mpr ⟨?_, h⟩
      intro x hx
      simp only [List.map_cons, List.mem_cons] at hx
      rcases hx with hx | hx
      · omega
      · have := h0 x hx
        omega
    · split
      · rename_i h1 h2
        subst h2
        exact List.pairwise_cons.mpr ⟨h0, hrest⟩
      · rename_i h1 h2
        refine List.pairwise_cons.mpr ⟨?_, ih hrest⟩
        intro x hx
        rcases map_keys_assign_mem rest k v x hx with hx | hx
        · omega
        · exact h0 x hx

/-- C6: for every registry state and every protocol object at address
`protocol`, after `register_protocol(protocol)` the lookup of its application
id yields `protocol` (also when the id was registered before), the lookup of
every other application id is unchanged, and the registry still holds at most
one entry per application id; the call also sets the parent of the protocol. -/
theorem C6_register_protocol_overwrites (this : Nat) (self : ESPNowComponent)
    (store : Nat → ESPNowProtocol) (protocol : Nat) (h : map_ordered self.protocols_) :
    map_find (self.register_protocol this store protocol).1.protocols_ (store protocol).app_id
      = some protocol ∧
    (∀ k, k ≠ (store protocol).app_id →
      map_find (self.register_protocol this store protocol).1.protocols_ k
        = map_find self.protocols_ k) ∧
    map_ordered (self.register_protocol this store protocol).1.protocols_ ∧
    (map_keys (self.register_protocol this store protocol).1.protocols_).Nodup ∧
    ((self.register_protocol this store protocol).2 protocol).parent_ = some this := by
  have e : (self.register_protocol this store protocol).1.protocols_
      = map_assign self.protocols_ (store protocol).app_id protocol := by
    simp [ESPNowComponent.register_protocol]
  rw [e]
  have ho := map_ordered_assign self.protocols_ (store protocol).app_id protocol h
  refine ⟨map_find_assign_same _ _ _, ?_, ho, ?_, ?_⟩
  · intro k hk
    exact map_find_assign_other _ _ _ k hk
  · exact List.Pairwise.imp (fun hab => Nat.ne_of_lt hab) ho
  · simp [ESPNowComponent.register_protocol]

theorem C6_register_protocol_overwrites_witness :
    map_ordered SAMPLE_COMPONENT.protocols_ ∧
    map_find SAMPLE_COMPONENT.protocols_ ESPNOW_DEFAULT_APP_ID = some 1 ∧
    map_find (SAMPLE_COMPONENT.register_protocol 0
      (fun _ => ESPNowProtocol.ctor ESPNOW_DEFAULT_APP_ID) 2).1.protocols_
        ESPNOW_DEFAULT_APP_ID = some 2 :=
  ⟨by decide, by decide,
    (C6_register_protocol_overwrites 0 SAMPLE_COMPONENT
      (fun _ => ESPNowProtocol.ctor ESPNOW_DEFAULT_APP_ID) 2 (by decide)).1⟩

/-! ## Checksum recomputation -/

theorem content_length (abi : ABI) (p : ESPNowPacket) :
    (p.content abi).length = CONTENT_SIZE := by
  simp [ESPNowPacket.content]

theorem recalc_eq_some (abi : ABI) (crc : Nat → List Nat → Nat) (p : ESPNowPacket)
    (h : p.size ≤ 241) :
    p.recalc abi crc = some { p with
      crc16 := crc p.ref_id
        ((p.clear_crc16.content abi).take (10 + p.size)) % 65536 } := by
  have hlen : 10 + p.clear_crc16.size ≤ (p.clear_crc16.content abi).length := by
    rw [content_length]
    show 10 + p.size ≤ 240 + 11
    omega
  simp only [ESPNowPacket.recalc, read_bytes]
  rw [if_pos hlen]
  rfl

theorem recalc_eq_none (abi : ABI) (crc : Nat → List Nat → Nat) (p : ESPNowPacket)
    (h : 241 < p.size) : p.recalc abi crc = none := by
  have hlen : ¬ 10 + p.clear_crc16.size ≤ (p.clear_crc16.content abi).length := by
    rw [content_length]
    show ¬ 10 + p.size ≤ 240 + 11
    omega
  simp only [ESPNowPacket.recalc, read_bytes]
  rw [if_neg hlen]

/-- C10: for every packet with `size <= MAX_ESPNOW_DATA_SIZE` the `10 + size`
bytes `recalc()` reads lie within the 251-byte `content` array, so the call is
defined; for every packet with `size > 241` the read range exceeds 251 and the
call leaves the array; 255 is such a size and fits the `uint8_t` field. -/
theorem C10_recalc_reads_within_content (abi : ABI) (crc : Nat → List Nat → Nat)
    (p q : ESPNowPacket) (hp : p.size ≤ MAX_ESPNOW_DATA_SIZE) (hq : 241 < q.size) :
    (p.content abi).length = 251 ∧
    10 + p.size ≤ 250 ∧
    (p.recalc abi crc).isSome = true ∧
    (q.content abi).length < 10 + q.size ∧
    q.recalc abi crc = none ∧
    (255 < 2 ^ 8 ∧ ({ p with size := 255 } : ESPNowPacket).recalc abi crc = none) := by
  have hp1 : p.size ≤ 240 := hp
  refine ⟨content_length abi p, by omega, ?_, ?_, recalc_eq_none abi crc q hq, by decide, ?_⟩
  · rw [recalc_eq_some abi crc p (by omega)]
    rfl
  · rw [content_length]
    show 240 + 11 < 10 + q.size
    omega
  · apply recalc_eq_none
    show 241 < 255
    omega

theorem C10_recalc_reads_within_content_witness :
    ({ DEFAULT_PACKET with size := 240 } : ESPNowPacket).size ≤ MAX_ESPNOW_DATA_SIZE ∧
    241 < ({ DEFAULT_PACKET with size := 255 } : ESPNowPacket).size ∧
    (({ DEFAULT_PACKET with size := 240 } : ESPNowPacket).recalc ESP32_ABI esp_crc16_le).isSome
      = true ∧
    ({ DEFAULT_PACKET with size := 255 } : ESPNowPacket).recalc ESP32_ABI esp_crc16_le = none :=
  have h := C10_recalc_reads_within_content ESP32_ABI esp_crc16_le
    { DEFAULT_PACKET with size := 240 } { DEFAULT_PACKET with size := 255 }
    (by decide) (by decide)
  ⟨by decide, by decide, h.2.2.1, h.2.2.2.2.1⟩

/-- C7: for every packet with `size <= 240`, `recalc()` sets `crc16` to
`esp_crc16_le(ref_id, b, 10 + size)`, where `b` is the first `10 + size` bytes
of `content` taken with the `crc16` field set to 0, and changes no other
field. -/
theorem C7_recalc_seeds_crc_with_ref_id (abi : ABI) (crc : Nat → List Nat → Nat)
    (p : ESPNowPacket) (h : p.size ≤ MAX_ESPNOW_DATA_SIZE) :
    ∃ q : ESPNowPacket, p.recalc abi crc = some q ∧
      q.crc16 = crc p.ref_id
        ((p.clear_crc16.content abi).take (10 + p.size)) % 65536 ∧
      ((p.clear_crc16.content abi).take (10 + p.size)).length
        = 10 + p.size ∧
      q = { p with crc16 := q.crc16 } ∧
      q.mac64 = p.mac64 ∧ q.size = p.size ∧ q.retrys = p.retrys ∧ q.header = p.header ∧
      q.app_id = p.app_id ∧ q.ref_id = p.ref_id ∧ q.data = p.data := by
  have hp1 : p.size ≤ 240 := h
  refine ⟨_, recalc_eq_some abi crc p (by omega), rfl, ?_, rfl, rfl, rfl, rfl, rfl, rfl, rfl, rfl⟩
  rw [List.length_take, content_length]
  show min (10 + p.size) (240 + 11) = 10 + p.size
  omega

theorem C7_recalc_seeds_crc_with_ref_id_witness :
    SAMPLE_PACKET.size ≤ MAX_ESPNOW_DATA_SIZE ∧
    ∃ q : ESPNowPacket, SAMPLE_PACKET.recalc ESP32_ABI esp_crc16_le = some q ∧
      q.crc16 = esp_crc16_le SAMPLE_PACKET.ref_id
        ((SAMPLE_PACKET.clear_crc16.content ESP32_ABI).take (10 + SAMPLE_PACKET.size))
          % 65536 := by
  have hs : SAMPLE_PACKET.size ≤ MAX_ESPNOW_DATA_SIZE := by decide
  obtain ⟨q, h1, h2, _⟩ := C7_recalc_seeds_crc_with_ref_id ESP32_ABI esp_crc16_le SAMPLE_PACKET hs
  exact ⟨hs, q, h1, h2⟩

/-- C3: for every packet with `size <= 240`, `recalc()` yields a packet on which a
second `recalc()` changes nothing, and the packet it yields (so also the
`crc16` it stores) is the same whatever `crc16` held before the call. -/
theorem C3_recalc_idempotent (abi : ABI) (crc : Nat → List Nat → Nat) (p : ESPNowPacket)
    (h : p.size ≤ MAX_ESPNOW_DATA_SIZE) :
    ∃ q : ESPNowPacket, p.recalc abi crc = some q ∧
      q.recalc abi crc = some q ∧
      ∀ c : Nat, ({ p with crc16 := c } : ESPNowPacket).recalc abi crc = some q := by
  have hp1 : p.size ≤ 240 := h
  refine ⟨_, recalc_eq_some abi crc p (by omega), ?_, ?_⟩
  · rw [recalc_eq_some abi crc _ (by show p.size ≤ 241; omega)]
    rfl
  · intro c
    rw [recalc_eq_some abi crc _ (by show p.size ≤ 241; omega)]
    rfl

theorem C3_recalc_idempotent_witness :
    SAMPLE_PACKET.size ≤ MAX_ESPNOW_DATA_SIZE ∧
    ∃ q : ESPNowPacket, SAMPLE_PACKET.recalc ESP32_ABI esp_crc16_le = some q ∧
      q.recalc ESP32_ABI esp_crc16_le = some q := by
  have hs : SAMPLE_PACKET.size ≤ MAX_ESPNOW_DATA_SIZE := by decide
  obtain ⟨q, h1, h2, _⟩ := C3_recalc_idempotent ESP32_ABI esp_crc16_le SAMPLE_PACKET hs
  exact ⟨hs, q, h1, h2⟩

/-! ## What the checksum covers -/

theorem le_align_up (n a : Nat) (ha : 0 < a) : n ≤ align_up n a := by
  unfold align_up
  have h1 := Nat.div_add_mod (n + a - 1) a
  have h2 := Nat.mod_lt (n + a - 1) ha
  rw [Nat.mul_comm] at h1
  omega

theorem offsetof_data_ge (abi : ABI) : 10 ≤ offsetof_data abi := by
  have h1 := le_align_up (offsetof_header + 3) abi.align32 abi.pos32
  have h2 := le_align_up (offsetof_ref_id abi + 1) abi.align16 abi.pos16
  unfold offsetof_data offsetof_crc16
  unfold offsetof_ref_id offsetof_app_id at *
  unfold offsetof_header at *
  omega

theorem take_map_range_congr (f g : Nat → Nat) (m n : Nat) (h : ∀ i, i < n → f i = g i) :
    ((List.range m).map f).take n = ((List.range m).map g).take n := by
  rw [← List.map_take, ← List.map_take, List.take_range]
  apply List.map_congr_left
  intro i hi
  have hlt := List.mem_range.mp hi
  exact h i (by omega)

theorem content_byte_congr (abi : ABI) (p q : ESPNowPacket) (i : Nat)
    (hsize : p.size ≤ 240) (hi : i < 10 + p.size)
    (href : q.ref_id = p.ref_id)
    (hhdr : ∀ k, k < 3 → q.header k = p.header k)
    (happ : q.app_id = p.app_id)
    (hdata : ∀ k, k < p.size → q.data k = p.data k)
    (hpad : ∀ k, k < 10 + p.size → q.padding k = p.padding k) :
    q.clear_crc16.content_byte abi i = p.clear_crc16.content_byte abi i := by
  have hd := offsetof_data_ge abi
  unfold ESPNowPacket.content_byte
  simp only [ESPNowPacket.clear_crc16]
  by_cases h1 : i < offsetof_header + 3
  · rw [if_pos h1, if_pos h1]
    unfold offsetof_header at *
    rw [hhdr _ (by omega)]
  · rw [if_neg h1, if_neg h1, happ, href]
    by_cases h2 : offsetof_app_id abi ≤ i ∧ i < offsetof_app_id abi + 4
    · rw [if_pos h2, if_pos h2]
    · rw [if_neg h2, if_neg h2]
      by_cases h3 : i = offsetof_ref_id abi
      · rw [if_pos h3, if_pos h3]
      · rw [if_neg h3, if_neg h3]
        by_cases h4 : offsetof_crc16 abi ≤ i ∧ i < offsetof_crc16 abi + 2
        · rw [if_pos h4, if_pos h4]
        · rw [if_neg h4, if_neg h4]
          by_cases h5 : offsetof_data abi ≤ i ∧ i < offsetof_data abi + MAX_ESPNOW_DATA_SIZE
          · rw [if_pos h5, if_pos h5, hdata _ (by omega)]
          · rw [if_neg h5, if_neg h5]
            by_cases h6 : i = offsetof_space abi
            · exfalso
              unfold offsetof_space MAX_ESPNOW_DATA_SIZE at h6
              omega
            · rw [if_neg h6, if_neg h6, hpad _ hi]

set_option maxRecDepth 100000

/-- C2, refuted as stated: three packets that agree on `ref_id`, `size` and
the payload bytes in use, and differ only in `app_id` or in the header bytes,
get three different `crc16` values from `recalc()` with the vendor CRC16,
both under the ESP32 layout and under a packed layout: the bytes handed to
the checksum routine start with the header bytes and hold `app_id`. -/
theorem C2_recalc_crc_differs_with_app_id_and_header :
    SAMPLE_PACKET_OTHER_APP.ref_id = SAMPLE_PACKET.ref_id ∧
    SAMPLE_PACKET_OTHER_APP.size = SAMPLE_PACKET.size ∧
    (∀ i, i < SAMPLE_PACKET.size → SAMPLE_PACKET_OTHER_APP.data i = SAMPLE_PACKET.data i) ∧
    SAMPLE_PACKET_OTHER_APP.app_id ≠ SAMPLE_PACKET.app_id ∧
    SAMPLE_PACKET_OTHER_HEADER.ref_id = SAMPLE_PACKET.ref_id ∧
    SAMPLE_PACKET_OTHER_HEADER.size = SAMPLE_PACKET.size ∧
    (∀ i, i < SAMPLE_PACKET.size → SAMPLE_PACKET_OTHER_HEADER.data i = SAMPLE_PACKET.data i) ∧
    SAMPLE_PACKET_OTHER_HEADER.header 0 ≠ SAMPLE_PACKET.header 0 ∧
    (SAMPLE_PACKET.clear_crc16.content ESP32_ABI).take (10 + SAMPLE_PACKET.size)
      = [0xC1, 0x99, 0x83, 0x00, 0xAF, 0xCF, 0x11, 0x00, 0x05, 0x00, 0x00, 0x00] ∧
    (SAMPLE_PACKET_OTHER_APP.clear_crc16.content ESP32_ABI).take (10 + SAMPLE_PACKET.size)
      = [0xC1, 0x99, 0x83, 0x00, 0xFF, 0xFF, 0xFF, 0x00, 0x05, 0x00, 0x00, 0x00] ∧
    (SAMPLE_PACKET.clear_crc16.content PACKED_ABI).take (10 + SAMPLE_PACKET.size)
      = [0xC1, 0x99, 0x83, 0xAF, 0xCF, 0x11, 0x00, 0x05, 0x00, 0x00, 0x01, 0x02] ∧
    (SAMPLE_PACKET_OTHER_APP.clear_crc16.content PACKED_ABI).take (10 + SAMPLE_PACKET.size)
      = [0xC1, 0x99, 0x83, 0xFF, 0xFF, 0xFF, 0x00, 0x05, 0x00, 0x00, 0x01, 0x02] ∧
    (SAMPLE_PACKET.recalc ESP32_ABI esp_crc16_le).map ESPNowPacket.crc16 = some 64625 ∧
    (SAMPLE_PACKET_OTHER_APP.recalc ESP32_ABI esp_crc16_le).map ESPNowPacket.crc16
      = some 44803 ∧
    (SAMPLE_PACKET_OTHER_HEADER.recalc ESP32_ABI esp_crc16_le).map ESPNowPacket.crc16
      = some 23678 ∧
    (SAMPLE_PACKET.recalc PACKED_ABI esp_crc16_le).map ESPNowPacket.crc16 = some 52247 ∧
    (SAMPLE_PACKET_OTHER_APP.recalc PACKED_ABI esp_crc16_le).map ESPNowPacket.crc16
      = some 40145 ∧
    (SAMPLE_PACKET_OTHER_HEADER.recalc PACKED_ABI esp_crc16_le).map ESPNowPacket.crc16
      = some 27672 := by
  repeat' apply And.intro
  all_goals decide

/-- C2, amended: `recalc()` stores the checksum, seeded with `ref_id`, of the
first `10 + size` bytes of `content` taken with `crc16` zeroed.  For every two
packets with `size <= 240` that agree on `ref_id`, `size`, the payload bytes
in use, and also on the header bytes, on `app_id` and on the padding bytes
among those first `10 + size` bytes, `recalc()` stores the same `crc16` in
both, whatever their other fields and their earlier `crc16`. -/
theorem C2_recalc_crc_covers_header_and_app_id (abi : ABI) (crc : Nat → List Nat → Nat)
    (p q : ESPNowPacket) (hsize : p.size ≤ MAX_ESPNOW_DATA_SIZE)
    (hs : q.size = p.size) (href : q.ref_id = p.ref_id)
    (hdata : ∀ k, k < p.size → q.data k = p.data k)
    (hhdr : ∀ k, k < 3 → q.header k = p.header k)
    (happ : q.app_id = p.app_id)
    (hpad : ∀ k, k < 10 + p.size → q.padding k = p.padding k) :
    ∃ c : Nat,
      c = crc p.ref_id ((p.clear_crc16.content abi).take (10 + p.size)) % 65536 ∧
      (p.recalc abi crc).map ESPNowPacket.crc16 = some c ∧
      (q.recalc abi crc).map ESPNowPacket.crc16 = some c := by
  have hp1 : p.size ≤ 240 := hsize
  have hq1 : q.size ≤ 241 := by omega
  have hbytes : (q.clear_crc16.content abi).take (10 + q.size)
      = (p.clear_crc16.content abi).take (10 + p.size) := by
    rw [hs]
    unfold ESPNowPacket.content
    apply take_map_range_congr
    intro i hi
    exact content_byte_congr abi p q i hp1 hi href hhdr happ hdata hpad
  refine ⟨_, rfl, ?_, ?_⟩
  · rw [recalc_eq_some abi crc p (by omega)]
    rfl
  · rw [recalc_eq_some abi crc q hq1, hbytes, href]
    rfl

theorem C2_recalc_crc_covers_header_and_app_id_witness :
    SAMPLE_PACKET.size ≤ MAX_ESPNOW_DATA_SIZE ∧
    ∃ c : Nat,
      (SAMPLE_PACKET.recalc ESP32_ABI esp_crc16_le).map ESPNowPacket.crc16 = some c ∧
      (({ SAMPLE_PACKET with mac64 := ESPNOW_BROADCAST_ADDR, retrys := 3, crc16 := 0xBEEF }
        : ESPNowPacket).recalc ESP32_ABI esp_crc16_le).map ESPNowPacket.crc16 = some c := by
  have hs : SAMPLE_PACKET.size ≤ MAX_ESPNOW_DATA_SIZE := by decide
  obtain ⟨c, _, h1, h2⟩ := C2_recalc_crc_covers_header_and_app_id ESP32_ABI esp_crc16_le
    SAMPLE_PACKET { SAMPLE_PACKET with mac64 := ESPNOW_BROADCAST_ADDR, retrys := 3, crc16 := 0xBEEF }
    hs rfl rfl (fun _ _ => rfl) (fun _ _ => rfl) rfl (fun _ _ => rfl)
  exact ⟨hs, c, h1, h2⟩

/-! ## Layout of `content` on the target -/

/-- C4: evaluated for the ESP32 ABI, the struct that `content` aliases has
`app_id` at offset 4, `ref_id` at 8, `crc16` at 10, `data` at 12 and `space` at
252, with padding at offsets 3 and 9.  For a default-constructed packet
`content[7]` is the high byte `0x00` of `app_id` and not `ref_id` (`0x99`),
`content[8..9]` is not `crc16`, and for the sample packet `content[10]` is the
low byte of `crc16` and not `data[0]`.  The 10 bytes before the payload and
the 251 bytes of `content` that the source counts are the sizes of a packed
layout. -/
theorem C4_content_layout_on_esp32 :
    offsetof_app_id ESP32_ABI = 4 ∧
    offsetof_ref_id ESP32_ABI = 8 ∧
    offsetof_crc16 ESP32_ABI = 10 ∧
    offsetof_data ESP32_ABI = 12 ∧
    offsetof_space ESP32_ABI = 252 ∧
    CONTENT_SIZE = 251 ∧
    (DEFAULT_PACKET.content ESP32_ABI).take 12
      = [0xC1, 0x99, 0x83, 0x00, 0xFF, 0xFF, 0xFF, 0x00, 0x99, 0x00, 0x34, 0x12] ∧
    DEFAULT_PACKET.ref_id = 0x99 ∧
    DEFAULT_PACKET.content_byte ESP32_ABI 7 = 0x00 ∧
    DEFAULT_PACKET.crc16 = 0x1234 ∧
    DEFAULT_PACKET.content_byte ESP32_ABI 8 + 256 * DEFAULT_PACKET.content_byte ESP32_ABI 9
      = 0x0099 ∧
    SAMPLE_PACKET.data 0 = 0x01 ∧
    SAMPLE_PACKET.content_byte ESP32_ABI 10 = 0x34 ∧
    SAMPLE_PACKET.content_byte ESP32_ABI 12 = 0x01 ∧
    ({ DEFAULT_PACKET with padding := fun _ => 0xAA } : ESPNowPacket).content_byte ESP32_ABI 3
      = 0xAA ∧
    (offsetof_app_id PACKED_ABI = 3 ∧ offsetof_ref_id PACKED_ABI = 7 ∧
      offsetof_crc16 PACKED_ABI = 8 ∧ offsetof_data PACKED_ABI = 10 ∧
      offsetof_space PACKED_ABI + 1 = CONTENT_SIZE) := by
  repeat' apply And.intro
  all_goals decide

end esphome.espnow
